import Mathlib

/-!
Shallow embedding of the netnet ingestion-and-enrichment pipeline.

The repository is a small Go program that parses airodump-ng CSV dumps into
access-point and client records, enriches client hardware addresses with an
organization name looked up in two registries (OUI for globally assigned
addresses, CID for locally administered ones), and republishes the parsed
lists on a fixed interval.

Modelling conventions:
- Go strings are Lean `String`; all operations work on the underlying
  character list (`String.data`), which matches Go byte slicing for the
  ASCII inputs this program consumes.
- Go `time.Time` values are modelled as `Int` seconds on the proleptic
  Gregorian calendar (Unix-epoch based); comparisons of two times in the
  same location coincide with comparisons of these numbers.
- A Go runtime panic (out-of-range string slice, out-of-range index) is
  modelled as `none` of an `Option` result.
- The two registries are Go maps with the zero-value default: modelled as
  total functions `String → String` where a missing key yields `""`.
  They are package-level globals in the source; they are passed explicitly
  here.
- `fmt.Println` logging has no effect on the data flow and is dropped.
- The encoding/csv reader is modelled for quote-free input (the airodump
  format exercised by every claim): records are newline-separated lines,
  a trailing carriage return is stripped, empty lines yield no record,
  fields are comma-separated, and `TrimLeadingSpace` removes leading
  white space of each field (`FieldsPerRecord = -1`, so no column-count
  check is made by the reader itself).
-/

namespace Netnet

/-- Go `unicode.IsSpace` restricted to the ASCII white space characters
(space, tab, newline, vertical tab, form feed, carriage return). -/
def goIsSpace (c : Char) : Bool :=
  c == ' ' || c == '\t' || c == '\n' || c == '\r' || c.toNat == 11 || c.toNat == 12

/-- Drop leading white space from a character list. -/
def trimLeftChars (l : List Char) : List Char := l.dropWhile goIsSpace

/-- Drop leading and trailing white space from a character list. -/
def trimChars (l : List Char) : List Char :=
  ((l.dropWhile goIsSpace).reverse.dropWhile goIsSpace).reverse

/-- Go `strings.TrimSpace`. -/
def goTrimSpace (s : String) : String := ⟨trimChars s.data⟩

/-- Length of a Go string (in characters; the inputs are ASCII). -/
def strLen (s : String) : Nat := s.data.length

/-- The first `n` characters of a string. -/
def strTake (n : Nat) (s : String) : String := ⟨s.data.take n⟩

/-- Go string slicing `s[:n]`. `none` models the out-of-range panic raised
when `n` exceeds the length of `s`. -/
def goSliceTo (s : String) (n : Nat) : Option String :=
  if n ≤ strLen s then some (strTake n s) else none

/-- Character-wise replacement of a colon by a hyphen. -/
def colonDash (c : Char) : Char := if c = ':' then '-' else c

/-- Go `strings.ReplaceAll(s, ":", "-")`: both pattern and replacement are
single characters, so this is a character map. -/
def replaceColons (s : String) : String := ⟨s.data.map colonDash⟩

/-- Value of one hexadecimal digit. -/
def hexDigit (c : Char) : Option Nat :=
  if 48 ≤ c.toNat ∧ c.toNat ≤ 57 then some (c.toNat - 48)
  else if 97 ≤ c.toNat ∧ c.toNat ≤ 102 then some (c.toNat - 97 + 10)
  else if 65 ≤ c.toNat ∧ c.toNat ≤ 70 then some (c.toNat - 65 + 10)
  else none

/-- Accumulate hexadecimal digits; `none` on the first non-digit. -/
def hexAccum : List Char → Nat → Option Nat
  | [], acc => some acc
  | c :: rest, acc =>
    match hexDigit c with
    | none => none
    | some d => hexAccum rest (acc * 16 + d)

/-- Value of a non-empty run of hexadecimal digits. -/
def hexDigitsVal : List Char → Option Nat
  | [] => none
  | c :: rest => hexAccum (c :: rest) 0

/-- Go `strconv.ParseInt(s, 16, 32)`: optional sign followed by at least one
hexadecimal digit. The call sites pass two-character slices, so the 32-bit
range check can never fail and is omitted. -/
def goParseIntHex (s : String) : Option Int :=
  match s.data with
  | '-' :: rest => (hexDigitsVal rest).map (fun n => -(n : Int))
  | '+' :: rest => (hexDigitsVal rest).map (fun n => (n : Int))
  | l => (hexDigitsVal l).map (fun n => (n : Int))

/-- Go `(x >> 1) & 1` on a signed integer: arithmetic right shift is
flooring division by two, and masking with 1 on a twos-complement value
is the non-negative remainder modulo two. -/
def goShr1And1 (x : Int) : Int := (Int.fdiv x 2) % 2

/-- `isLocalMAC` from the source: interpret the first two characters of the
address as a hexadecimal byte and test the second-least-significant bit.
A parse failure is only logged and the zero value 0 is used, so an
unparseable first byte classifies as globally administered. `none` models
the panic of `MAC[:2]` on an address shorter than two characters. -/
def isLocalMAC (MAC : String) : Option Bool :=
  (goSliceTo MAC 2).map (fun s2 =>
    let first : Int := (goParseIntHex s2).getD 0
    decide (goShr1And1 first = 1))

/-- Value of one decimal digit. -/
def decDigit (c : Char) : Option Nat :=
  if 48 ≤ c.toNat ∧ c.toNat ≤ 57 then some (c.toNat - 48) else none

/-- Accumulate decimal digits; `none` on the first non-digit. -/
def decAccum : List Char → Nat → Option Nat
  | [], acc => some acc
  | c :: rest, acc =>
    match decDigit c with
    | none => none
    | some d => decAccum rest (acc * 10 + d)

/-- Value of a non-empty run of decimal digits. -/
def decDigitsVal : List Char → Option Nat
  | [] => none
  | c :: rest => decAccum (c :: rest) 0

/-- Go `strconv.Atoi`: optional sign followed by at least one decimal
digit. The dump values are small, so the 64-bit range check is omitted. -/
def goAtoi (s : String) : Option Int :=
  match s.data with
  | '-' :: rest => (decDigitsVal rest).map (fun n => -(n : Int))
  | '+' :: rest => (decDigitsVal rest).map (fun n => (n : Int))
  | l => (decDigitsVal l).map (fun n => (n : Int))

/-- Leap year rule of the Gregorian calendar. -/
def isLeap (y : Nat) : Bool := (y % 4 == 0 && y % 100 != 0) || y % 400 == 0

/-- Number of days in a month. -/
def daysInMonth (y m : Nat) : Nat :=
  if m = 2 then (if isLeap y then 29 else 28)
  else if m = 4 ∨ m = 6 ∨ m = 9 ∨ m = 11 then 30 else 31

/-- Days from the Unix epoch to a civil date (proleptic Gregorian). -/
def daysFromCivil (y : Int) (m d : Nat) : Int :=
  let yAdj : Int := if m ≤ 2 then y - 1 else y
  let era : Int := Int.fdiv yAdj 400
  let yoe : Int := yAdj - era * 400
  let mp : Int := if m ≤ 2 then (m : Int) + 9 else (m : Int) - 3
  let doy : Int := Int.fdiv (153 * mp + 2) 5 + (d : Int) - 1
  let doe : Int := yoe * 365 + Int.fdiv yoe 4 - Int.fdiv yoe 100 + doy
  era * 146097 + doe - 719468

/-- Two decimal digit characters as a number. -/
def twoDigits (a b : Char) : Option Nat :=
  match decDigit a, decDigit b with
  | some x, some y => some (10 * x + y)
  | _, _ => none

/-- Four decimal digit characters as a number. -/
def fourDigits (a b c d : Char) : Option Nat :=
  match decDigit a, decDigit b, decDigit c, decDigit d with
  | some w, some x, some y, some z => some (1000 * w + 100 * x + 10 * y + z)
  | _, _, _, _ => none

/-- Go `time.ParseInLocation("2006-01-02 15:04:05", s, local)`, as the
seconds value of the parsed instant: the value must be exactly the
19-character pattern with in-range fields. All parsed times share one
location, so the zone offset is a common constant and is dropped; the
fractional-second extension of the Go parser is not exercised by any
dump and is not modelled. `none` models the parse error. -/
def parseTimestamp (s : String) : Option Int :=
  match s.data with
  | [y1, y2, y3, y4, h1, mo1, mo2, h2, d1, d2, sp, t1, t2, c1, t3, t4, c2, t5, t6] =>
    if h1 = '-' ∧ h2 = '-' ∧ sp = ' ' ∧ c1 = ':' ∧ c2 = ':' then
      match fourDigits y1 y2 y3 y4, twoDigits mo1 mo2, twoDigits d1 d2,
            twoDigits t1 t2, twoDigits t3 t4, twoDigits t5 t6 with
      | some y, some mo, some d, some hh, some mi, some ss =>
        if 1 ≤ mo ∧ mo ≤ 12 ∧ 1 ≤ d ∧ d ≤ daysInMonth y mo ∧ hh ≤ 23 ∧ mi ≤ 59 ∧ ss ≤ 59 then
          some (daysFromCivil (y : Int) mo d * 86400 + (hh : Int) * 3600 + (mi : Int) * 60 + (ss : Int))
        else none
      | _, _, _, _, _, _ => none
    else none
  | _ => none

/-- The Go zero `time.Time` (January 1 of year 1, 00:00:00) in the seconds
representation: this is the value a record field keeps when the timestamp
of its row fails to parse. -/
def goZeroTime : Int := -62135596800

/-- AccessPoint record of the source. -/
structure AccessPoint where
  MAC : String
  FirstSeen : Int
  LastSeen : Int
  Channel : Int
  Speed : String
  Privacy : String
  Authentication : String
  Power : Int
  Name : String
deriving DecidableEq, Repr

/-- Client record of the source. -/
structure Client where
  MAC : String
  FirstSeen : Int
  LastSeen : Int
  Power : Int
  Packets : Int
  BSSID : String
  Probes : String
  Organization : String
deriving DecidableEq, Repr

/-- Drop one trailing carriage return of a line, as the Go csv reader does. -/
def stripCR (l : List Char) : List Char :=
  if l.getLast? = some '\r' then l.dropLast else l

/-- Split a character list at every occurrence of a separator character. -/
def splitChar (sep : Char) : List Char → List (List Char)
  | [] => [[]]
  | c :: rest =>
    match splitChar sep rest with
    | [] => [[c]]
    | h :: t => if c = sep then [] :: h :: t else (c :: h) :: t

/-- Records read by the Go `encoding/csv` reader configured with
`FieldsPerRecord = -1` and `TrimLeadingSpace = true`, for quote-free
input: one record per non-empty line, fields split on commas with
leading white space removed. -/
def csvRows (s : String) : List (List String) :=
  (splitChar '\n' s.data).filterMap (fun line =>
    let line := stripCR line
    if line = [] then none
    else some ((splitChar ',' line).map (fun f => (⟨trimLeftChars f⟩ : String))))

/-- Does `pat` occur at the head of `l`? -/
def listStartsWith : List Char → List Char → Bool
  | [], _ => true
  | _ :: _, [] => false
  | p :: ps, c :: cs => p == c && listStartsWith ps cs

/-- Index of the first occurrence of `pat` in `l`. -/
def findSub (pat : List Char) : List Char → Option Nat
  | [] => if listStartsWith pat [] then some 0 else none
  | c :: rest =>
    if listStartsWith pat (c :: rest) then some 0
    else (findSub pat rest).map (· + 1)

/-- Split around every occurrence of `pat`, with fuel for termination. -/
def splitSubFuel (pat : List Char) : Nat → List Char → List (List Char)
  | 0, l => [l]
  | Nat.succ fuel, l =>
    match findSub pat l with
    | none => [l]
    | some i => l.take i :: splitSubFuel pat fuel (l.drop (i + pat.length))

/-- Go `strings.Split(s, sep)` for a non-empty separator: the fuel
`strLen s + 1` is enough because every split consumes at least one
character of `s`. -/
def strSplitOn (sep s : String) : List String :=
  (splitSubFuel sep.data (strLen s + 1) s.data).map (fun l => (⟨l⟩ : String))

/-- The literal client-section header line the source splits the dump on. -/
def clientHeader : String :=
  "Station MAC, First time seen, Last time seen, Power, # packets, BSSID, Probed ESSIDs"

/-- One row of the access-point section (`getAPData` loop body, after the
header row): a row with fewer than 14 columns is skipped with a
diagnostic; otherwise a record is built. A timestamp or integer parse
failure is only logged (`check`) and leaves the Go zero value in the
field. -/
def apOfRecord (record : List String) : Option AccessPoint :=
  if record.length < 14 then none
  else some {
    MAC := replaceColons (record.getD 0 ""),
    FirstSeen := (parseTimestamp (goTrimSpace (record.getD 1 ""))).getD goZeroTime,
    LastSeen := (parseTimestamp (goTrimSpace (record.getD 2 ""))).getD goZeroTime,
    Channel := (goAtoi (goTrimSpace (record.getD 3 ""))).getD 0,
    Speed := record.getD 4 "",
    Privacy := record.getD 5 "",
    Authentication := record.getD 7 "",
    Power := (goAtoi (goTrimSpace (record.getD 8 ""))).getD 0,
    Name := record.getD 13 "" }

/-- `getAPData` from the source: read the access-point section, skip the
first record (the section header row, index `i = 0`), and build a record
from every remaining row with at least 14 columns. -/
def getAPData (data : String) : List AccessPoint :=
  ((csvRows data).drop 1).filterMap apOfRecord

/-- The organization enrichment of `getClientsData`: when the address is
locally administered, look the prefix up in the CID registry and fall
back to the literal marker value when the trimmed entry is empty; when it
is globally assigned, use the trimmed OUI registry entry as is. -/
def enrichOrg (ciddb ouidb : String → String) (loc : Bool) (pfx : String) : String :=
  if loc then
    (let cid := goTrimSpace (ciddb pfx); if cid ≠ "" then cid else "LOCAL")
  else goTrimSpace (ouidb pfx)

/-- The record built from a client row once the normalized address `mac`
is at hand. The outer `none` models a panic (address shorter than the
`MAC[:2]` or `MAC[:8]` slice); timestamp and integer parse failures are
only logged and leave the zero value in the field. -/
def clientFromRow (ciddb ouidb : String → String) (record : List String) (mac : String) :
    Option Client :=
  match isLocalMAC mac, goSliceTo mac 8 with
  | some loc, some pfx =>
    some {
      MAC := mac,
      FirstSeen := (parseTimestamp (goTrimSpace (record.getD 1 ""))).getD goZeroTime,
      LastSeen := (parseTimestamp (goTrimSpace (record.getD 2 ""))).getD goZeroTime,
      Power := (goAtoi (goTrimSpace (record.getD 3 ""))).getD 0,
      Packets := (goAtoi (goTrimSpace (record.getD 4 ""))).getD 0,
      BSSID := record.getD 5 "",
      Probes := record.getD 6 "",
      Organization := enrichOrg ciddb ouidb loc pfx }
  | _, _ => none

/-- One row of the client section (`getClientsData` loop body): a row with
fewer than 7 columns is skipped with a diagnostic (`some none`);
otherwise the row builds a record from its colon-to-hyphen normalized
address. -/
def rowToClient (ciddb ouidb : String → String) (record : List String) :
    Option (Option Client) :=
  if record.length < 7 then some none
  else (clientFromRow ciddb ouidb record (replaceColons (record.getD 0 ""))).map some

/-- Process the client rows in order; the first panic aborts the whole
parse. -/
def processRows (ciddb ouidb : String → String) : List (List String) → Option (List Client)
  | [] => some []
  | r :: rest =>
    match rowToClient ciddb ouidb r with
    | none => none
    | some none => processRows ciddb ouidb rest
    | some (some c) => (processRows ciddb ouidb rest).map (fun cs => c :: cs)

/-- `getClientsData` from the source: the client section is parsed
header-less, every record with at least 7 columns yields a client. -/
def getClientsData (ciddb ouidb : String → String) (data : String) : Option (List Client) :=
  processRows ciddb ouidb (csvRows data)

/-- `parseAirodumpCsv` from the source. The file content is `none` when the
read fails: the failure is logged and the zero values of the named result
slices — two empty lists — are returned. Otherwise the text is split on
the literal client header; when the header is absent the split yields a
single part and the access `csvdata[1]` panics (outer `none`). -/
def parseAirodumpCsv (ciddb ouidb : String → String) (file : Option String) :
    Option (List AccessPoint × List Client) :=
  match file with
  | none => some ([], [])
  | some s =>
    match strSplitOn clientHeader s with
    | p0 :: p1 :: _ => (getClientsData ciddb ouidb p1).map (fun cs => (getAPData p0, cs))
    | _ => none

/-- One iteration of the `getData` refresh loop: the parse result is
assigned to the published globals `apsFound, clientsFound`
unconditionally; the previous snapshot is discarded whatever the parse
produced. `none` models a panic of the iteration. The unused `prev`
argument is the point: the loop body never consults it. -/
def getDataStep (ciddb ouidb : String → String) (file : Option String)
    (_prev : List AccessPoint × List Client) : Option (List AccessPoint × List Client) :=
  parseAirodumpCsv ciddb ouidb file

/-- `filterByLastSeen` from the source: keep the clients whose last-seen
time is strictly after `now` minus `mins` minutes. The source calls
`time.Now()` for each element; the clock is a single explicit `now`
here. -/
def filterByLastSeen (clients : List Client) (mins : Int) (now : Int) : List Client :=
  clients.filter (fun c => decide (now - mins * 60 < c.LastSeen))

/-- A registry with no entries: a Go map lookup yields the zero value. -/
def emptyDb : String → String := fun _ => ""

/-! Concrete dump fragments used to instantiate the claims. -/

/-- A well-formed access-point section: its own header row followed by one
data row with 15 columns. -/
def apTextW : String := "\nBSSID, First time seen, Last time seen, channel, Speed, Privacy, Cipher, Authentication, Power, beacons, IV, LAN IP, ID-length, ESSID, Key\naa:bb:cc:dd:ee:ff, 2024-01-01 10:00:00, 2024-01-01 10:05:00, 6, 54, WPA2, CCMP, PSK, -40, 10, 0, 0.0.0.0, 4, MyAP, \n"

/-- A well-formed client section with one 7-column row. -/
def clTextW : String := "\n11:22:33:44:55:66, 2024-01-01 10:00:00, 2024-01-01 10:05:00, -40, 12, (not associated), \n"

/-- A well-formed dump: access-point section, marker line, client section. -/
def dumpW : String := apTextW ++ clientHeader ++ clTextW

/-! Structural lemmas about the embedded parser. -/

/-- Replacing colons does not change the length of an address. -/
theorem strLen_replaceColons (s : String) : strLen (replaceColons s) = strLen s := by
  simp [strLen, replaceColons]

/-- An in-range Go slice returns the first characters. -/
theorem goSliceTo_of_le (s : String) (n : Nat) (h : n ≤ strLen s) :
    goSliceTo s n = some (strTake n s) := by
  unfold goSliceTo
  rw [if_pos h]

/-- Trimming the empty string yields the empty string. -/
theorem goTrimSpace_empty : goTrimSpace "" = "" := rfl

/-- A locally administered address whose CID registry entry is absent
(the Go map yields the zero value) enriches to the literal marker. -/
theorem enrichOrg_local_miss (ciddb ouidb : String → String) (pfx : String)
    (h : ciddb pfx = "") : enrichOrg ciddb ouidb true pfx = "LOCAL" := by
  simp [enrichOrg, h, goTrimSpace_empty]

/-- A globally assigned address whose OUI registry entry is absent
enriches to the empty organization. -/
theorem enrichOrg_global_miss (ciddb ouidb : String → String) (pfx : String)
    (h : ouidb pfx = "") : enrichOrg ciddb ouidb false pfx = "" := by
  simp [enrichOrg, h, goTrimSpace_empty]

/-- An address long enough for the prefix slice always yields a record. -/
theorem clientFromRow_total (ciddb ouidb : String → String) (r : List String)
    (mac : String) (h8 : 8 ≤ strLen mac) :
    ∃ c, clientFromRow ciddb ouidb r mac = some c := by
  have e2 : goSliceTo mac 2 = some (strTake 2 mac) := goSliceTo_of_le _ _ (by omega)
  have e8 : goSliceTo mac 8 = some (strTake 8 mac) := goSliceTo_of_le _ _ h8
  have eL : isLocalMAC mac =
      some (decide (goShr1And1 ((goParseIntHex (strTake 2 mac)).getD 0) = 1)) := by
    unfold isLocalMAC
    rw [e2]
    rfl
  unfold clientFromRow
  simp only [eL, e8]
  exact ⟨_, rfl⟩

/-- A client row with at least 7 columns and an address long enough for the
prefix slice always yields a record. -/
theorem rowToClient_total (ciddb ouidb : String → String) (r : List String)
    (h7 : 7 ≤ r.length) (h8 : 8 ≤ strLen (replaceColons (r.getD 0 ""))) :
    ∃ c, rowToClient ciddb ouidb r = some (some c) := by
  unfold rowToClient
  rw [if_neg (by omega)]
  obtain ⟨c, hc⟩ := clientFromRow_total ciddb ouidb r (replaceColons (r.getD 0 "")) h8
  exact ⟨c, by rw [hc]; rfl⟩

/-- Every record built from a row carries the given address and the
enrichment of its 8-character prefix under its classification. -/
theorem clientFromRow_shape (ciddb ouidb : String → String) (r : List String)
    (mac : String) (c : Client) (h : clientFromRow ciddb ouidb r mac = some c) :
    ∃ loc, c.MAC = mac ∧ isLocalMAC c.MAC = some loc ∧
      c.Organization = enrichOrg ciddb ouidb loc (strTake 8 c.MAC) := by
  unfold clientFromRow at h
  split at h
  · rename_i loc pfx hloc hpfx
    obtain rfl := Option.some.inj h
    have hp8 : pfx = strTake 8 mac := by
      unfold goSliceTo at hpfx
      split at hpfx
      · exact (Option.some.inj hpfx).symm
      · exact absurd hpfx (by simp)
    subst hp8
    exact ⟨loc, rfl, hloc, rfl⟩
  · exact absurd h (by simp)

/-- Every record produced by a client row carries the normalized address
and the enrichment of its 8-character prefix under its classification. -/
theorem rowToClient_shape (ciddb ouidb : String → String) (r : List String) (c : Client)
    (h : rowToClient ciddb ouidb r = some (some c)) :
    ∃ loc, c.MAC = replaceColons (r.getD 0 "") ∧ isLocalMAC c.MAC = some loc ∧
      c.Organization = enrichOrg ciddb ouidb loc (strTake 8 c.MAC) := by
  unfold rowToClient at h
  split at h
  · simp at h
  · cases hcf : clientFromRow ciddb ouidb r (replaceColons (r.getD 0 "")) with
    | none => rw [hcf] at h; exact absurd h (by simp)
    | some c0 =>
      rw [hcf] at h
      simp only [Option.map_some'] at h
      obtain rfl := Option.some.inj (Option.some.inj h)
      exact clientFromRow_shape ciddb ouidb r (replaceColons (r.getD 0 "")) c0 hcf

/-- Client rows that all have at least 7 columns and full-length addresses
are processed without panic or skip, one record per row. -/
theorem processRows_length (ciddb ouidb : String → String) :
    ∀ l : List (List String),
      (∀ r ∈ l, 7 ≤ r.length ∧ 8 ≤ strLen (replaceColons (r.getD 0 ""))) →
      ∃ cs, processRows ciddb ouidb l = some cs ∧ cs.length = l.length := by
  intro l
  induction l with
  | nil => exact fun _ => ⟨[], rfl, rfl⟩
  | cons r rest ih =>
    intro h
    obtain ⟨c, hc⟩ := rowToClient_total ciddb ouidb r (h r (by simp)).1 (h r (by simp)).2
    obtain ⟨cs, hcs, hlen⟩ := ih (fun x hx => h x (by simp [hx]))
    refine ⟨c :: cs, ?_, by simp [hlen]⟩
    simp [processRows, hc, hcs]

/-- Every client in the processed output comes from some row. -/
theorem processRows_mem (ciddb ouidb : String → String) :
    ∀ (l : List (List String)) (cs : List Client) (c : Client),
      processRows ciddb ouidb l = some cs → c ∈ cs →
      ∃ r, rowToClient ciddb ouidb r = some (some c) := by
  intro l
  induction l with
  | nil =>
    intro cs c h hm
    simp only [processRows] at h
    obtain rfl := Option.some.inj h
    simp at hm
  | cons r rest ih =>
    intro cs c h hm
    simp only [processRows] at h
    cases hr : rowToClient ciddb ouidb r with
    | none => rw [hr] at h; exact absurd h (by simp)
    | some o =>
      cases o with
      | none => rw [hr] at h; exact ih cs c h hm
      | some c0 =>
        rw [hr] at h
        cases hrest : processRows ciddb ouidb rest with
        | none => rw [hrest] at h; exact absurd h (by simp)
        | some cs0 =>
          rw [hrest] at h
          simp only [Option.map_some'] at h
          obtain rfl := Option.some.inj h
          rcases List.mem_cons.mp hm with h1 | h1
          · exact ⟨r, by rw [hr, h1]⟩
          · exact ih cs0 c hrest h1

/-- Access-point rows that all have at least 14 columns each yield one
record. -/
theorem filterMap_apOfRecord_length :
    ∀ l : List (List String), (∀ r ∈ l, 14 ≤ r.length) →
      (l.filterMap apOfRecord).length = l.length := by
  intro l
  induction l with
  | nil => exact fun _ => rfl
  | cons r rest ih =>
    intro h
    have h14 : 14 ≤ r.length := h r (by simp)
    obtain ⟨a, ha⟩ : ∃ a, apOfRecord r = some a := by
      unfold apOfRecord
      rw [if_neg (by omega)]
      exact ⟨_, rfl⟩
    simp [List.filterMap_cons, ha, ih (fun x hx => h x (by simp [hx]))]

/-- The normalized address contains no colon. -/
theorem replaceColons_no_colon (s : String) : ':' ∉ (replaceColons s).data := by
  intro h
  obtain ⟨a, _, ha⟩ := List.mem_map.mp h
  by_cases h' : a = ':'
  · rw [colonDash, if_pos h'] at ha
    exact absurd ha (by decide)
  · rw [colonDash, if_neg h'] at ha
    exact h' ha

/-! Claim instantiations. -/

/-- A client section whose single row has an unparseable first-seen
timestamp. -/
def c1ClText : String := "\naa:bb:cc:dd:ee:ff, BAD, 2024-01-01 10:05:00, -40, 12, zz, pp\n"

/-- The record the source emits for that row: the first-seen field is the
Go zero time. -/
def c1Client : Client :=
  { MAC := "aa-bb-cc-dd-ee-ff", FirstSeen := goZeroTime, LastSeen := 1704103500,
    Power := -40, Packets := 12, BSSID := "zz", Probes := "pp", Organization := "LOCAL" }

/-- Claim C1: the claim states that a row whose timestamp or integer field
fails to parse is skipped and never yields a record with fabricated
zero-valued fields. The code only logs the parse error and appends the
record anyway: on a client row whose first-seen column is `BAD`, parsing
emits one record whose first-seen field is the Go zero time even though
the timestamp did not parse. -/
theorem c1_bad_timestamp_row_emits_zero_valued_record :
    parseTimestamp (goTrimSpace "BAD") = none ∧
    getClientsData emptyDb emptyDb c1ClText = some [c1Client] ∧
    c1Client.FirstSeen = goZeroTime := by decide

/-- A dump that nowhere contains the client-section header line. -/
def c2Dump : String := "BSSID, First time seen\nfoo,bar\n"

/-- Claim C2: the claim states that a dump without the client-section
header line makes parse report a format error and return no records
without crashing. The code splits on the header and indexes the second
part unconditionally, so a dump without the marker splits into a single
part and the access `csvdata[1]` panics (`none`), instead of returning
gracefully. -/
theorem c2_missing_marker_causes_panic :
    (strSplitOn clientHeader c2Dump).length = 1 ∧
    parseAirodumpCsv emptyDb emptyDb (some c2Dump) = none := by decide

/-- A previously published client, for the snapshot-retention claims. -/
def c3Client : Client :=
  { MAC := "11-22-33-44-55-66", FirstSeen := 1704103200, LastSeen := 1704103500,
    Power := -40, Packets := 12, BSSID := "(not associated)", Probes := "",
    Organization := "" }

/-- Claim C3: the claim states that when the dump file cannot be read the
previous snapshot is retained unchanged. The refresh loop assigns the
parse result to the published globals unconditionally, and on a read
error the parse returns two empty lists, so a non-empty previous
snapshot is replaced by the empty one rather than retained. -/
theorem c3_unreadable_file_replaces_snapshot_with_empty :
    getDataStep emptyDb emptyDb none ([], [c3Client]) = some ([], []) ∧
    (([], []) : List AccessPoint × List Client) ≠ ([], [c3Client]) := by decide

/-- Claim C4: for every successfully parsed client record, a locally
administered address whose 8-character prefix is absent from the CID
registry is enriched with the literal organization `LOCAL` (never
empty), and a globally assigned address whose prefix is absent from the
OUI registry is enriched with the empty organization. -/
theorem c4_enrichment_policy (ciddb ouidb : String → String) (data : String)
    (cs : List Client) (c : Client)
    (hp : getClientsData ciddb ouidb data = some cs) (hc : c ∈ cs) :
    (isLocalMAC c.MAC = some true → ciddb (strTake 8 c.MAC) = "" →
      c.Organization = "LOCAL" ∧ c.Organization ≠ "") ∧
    (isLocalMAC c.MAC = some false → ouidb (strTake 8 c.MAC) = "" →
      c.Organization = "") := by
  obtain ⟨r, hr⟩ := processRows_mem ciddb ouidb (csvRows data) cs c hp hc
  obtain ⟨loc, hmac, hloc, horg⟩ := rowToClient_shape ciddb ouidb r c hr
  constructor
  · intro ht hdb
    have hl : loc = true := by
      rw [hloc] at ht
      exact Option.some.inj ht
    subst hl
    rw [horg, enrichOrg_local_miss ciddb ouidb _ hdb]
    exact ⟨rfl, by decide⟩
  · intro hf hdb
    have hl : loc = false := by
      rw [hloc] at hf
      exact Option.some.inj hf
    subst hl
    rw [horg]
    exact enrichOrg_global_miss ciddb ouidb _ hdb

/-- A client section whose single row carries a locally administered
address (first byte 02). -/
def c4ClText : String := "\n02:00:00:00:00:01, 2024-01-01 10:00:00, 2024-01-01 10:05:00, -40, 12, x, y\n"

/-- The record parsed from that row with both registries empty. -/
def c4Client : Client :=
  { MAC := "02-00-00-00-00-01", FirstSeen := 1704103200, LastSeen := 1704103500,
    Power := -40, Packets := 12, BSSID := "x", Probes := "y", Organization := "LOCAL" }

/-- Witness for claim C4 at a concrete parsed record. -/
theorem c4_enrichment_policy_witness :
    (isLocalMAC c4Client.MAC = some true → emptyDb (strTake 8 c4Client.MAC) = "" →
      c4Client.Organization = "LOCAL" ∧ c4Client.Organization ≠ "") ∧
    (isLocalMAC c4Client.MAC = some false → emptyDb (strTake 8 c4Client.MAC) = "" →
      c4Client.Organization = "") :=
  c4_enrichment_policy emptyDb emptyDb c4ClText [c4Client] c4Client (by decide) (by simp)

/-- A client section whose single row has an address whose first byte is
not hexadecimal. -/
def c5ClText : String := "\nzz:00:11:22:33:44, 2024-01-01 10:00:00, 2024-01-01 10:05:00, -40, 12, (not associated), \n"

/-- The record the source emits for that row: classified as globally
assigned since the failed parse leaves the value 0. -/
def c5Client : Client :=
  { MAC := "zz-00-11-22-33-44", FirstSeen := 1704103200, LastSeen := 1704103500,
    Power := -40, Packets := 12, BSSID := "(not associated)", Probes := "",
    Organization := "" }

/-- Claim C5: the claim states that a first byte that does not parse as
hexadecimal makes the record be skipped via a recoverable error. The
code only logs the failure and keeps the zero value 0, whose
universal/local bit is 0, so the row is classified as globally assigned
and still emitted, not skipped (and the `main.go` variant instead kills
the process with `log.Fatal`). -/
theorem c5_unparseable_first_byte_row_not_skipped :
    goParseIntHex "zz" = none ∧
    isLocalMAC "zz-00-11-22-33-44" = some false ∧
    getClientsData emptyDb emptyDb c5ClText = some [c5Client] := by decide

/-- Claim C6: `filterByLastSeen` keeps a client exactly when its last-seen
time is strictly after now minus the window; a client last seen exactly
at the window bound is excluded and one a second more recent is
included. -/
theorem c6_filter_strict_window (clients : List Client) (mins now : Int)
    (hmins : 0 ≤ mins) (c : Client) :
    (c ∈ filterByLastSeen clients mins now ↔
      c ∈ clients ∧ now - mins * 60 < c.LastSeen) ∧
    (c.LastSeen = now - mins * 60 → c ∉ filterByLastSeen clients mins now) ∧
    (c ∈ clients → c.LastSeen = now - mins * 60 + 1 →
      c ∈ filterByLastSeen clients mins now) := by
  have hmem : c ∈ filterByLastSeen clients mins now ↔
      c ∈ clients ∧ now - mins * 60 < c.LastSeen := by
    simp [filterByLastSeen, List.mem_filter]
  refine ⟨hmem, ?_, ?_⟩
  · intro heq hin
    rw [hmem] at hin
    omega
  · intro hin heq
    rw [hmem]
    exact ⟨hin, by omega⟩

/-- A client last seen at second 1, for the filter witness. -/
def c6Client : Client :=
  { MAC := "aa", FirstSeen := 0, LastSeen := 1, Power := 0, Packets := 0,
    BSSID := "", Probes := "", Organization := "" }

/-- Witness for claim C6 at a concrete client, window and clock. -/
theorem c6_filter_strict_window_witness :
    (c6Client ∈ filterByLastSeen [c6Client] 1 60 ↔
      c6Client ∈ [c6Client] ∧ (60 : Int) - 1 * 60 < c6Client.LastSeen) ∧
    (c6Client.LastSeen = (60 : Int) - 1 * 60 →
      c6Client ∉ filterByLastSeen [c6Client] 1 60) ∧
    (c6Client ∈ [c6Client] → c6Client.LastSeen = (60 : Int) - 1 * 60 + 1 →
      c6Client ∈ filterByLastSeen [c6Client] 1 60) :=
  c6_filter_strict_window [c6Client] 1 60 (by decide) c6Client

/-- Claim C7: for every dump in which the client-section header occurs,
whose access-point data rows (the rows after the section header row)
all have at least 14 columns, and whose client rows all have at least 7
columns and a full-length address, parse returns exactly one
access-point record per data row — the section header row is skipped —
and exactly one client record per row of the header-less client
section. -/
theorem c7_parse_counts (ciddb ouidb : String → String) (s apText clText : String)
    (rest : List String)
    (hsplit : strSplitOn clientHeader s = apText :: clText :: rest)
    (hA : ∀ r ∈ (csvRows apText).drop 1, 14 ≤ r.length)
    (hC : ∀ r ∈ csvRows clText, 7 ≤ r.length ∧ 8 ≤ strLen (r.getD 0 "")) :
    ∃ cs : List Client,
      parseAirodumpCsv ciddb ouidb (some s) = some (getAPData apText, cs) ∧
      (getAPData apText).length = ((csvRows apText).drop 1).length ∧
      cs.length = (csvRows clText).length := by
  obtain ⟨cs, hcs, hlen⟩ := processRows_length ciddb ouidb (csvRows clText)
    (fun r hr => ⟨(hC r hr).1, by rw [strLen_replaceColons]; exact (hC r hr).2⟩)
  refine ⟨cs, ?_, ?_, hlen⟩
  · simp only [parseAirodumpCsv, hsplit]
    simp [getClientsData, hcs]
  · exact filterMap_apOfRecord_length _ hA

set_option maxRecDepth 100000 in
/-- Witness for claim C7 on a concrete well-formed dump with one
access-point data row and one client row. -/
theorem c7_parse_counts_witness :
    ∃ cs : List Client,
      parseAirodumpCsv emptyDb emptyDb (some dumpW) = some (getAPData apTextW, cs) ∧
      (getAPData apTextW).length = ((csvRows apTextW).drop 1).length ∧
      cs.length = (csvRows clTextW).length :=
  c7_parse_counts emptyDb emptyDb dumpW apTextW clTextW [] (by decide) (by decide)
    (by decide)

/-- The end-to-end client row of the spec scenario, with an uppercase
address. -/
def c8ClText : String := "\nAA:BB:CC:DD:EE:FF, 2024-01-01 10:00:00, 2024-01-01 10:05:00, -40, 12, (not associated), \n"

/-- The dump of the end-to-end scenario. -/
def c8Dump : String := apTextW ++ clientHeader ++ c8ClText

/-- The record the source actually emits for the uppercase row: the case
of the address is preserved, and 0xAA has the universal/local bit set,
so the empty-registry enrichment is the literal marker. -/
def c8Client : Client :=
  { MAC := "AA-BB-CC-DD-EE-FF", FirstSeen := 1704103200, LastSeen := 1704103500,
    Power := -40, Packets := 12, BSSID := "(not associated)", Probes := "",
    Organization := "LOCAL" }

set_option maxRecDepth 100000 in
/-- Claim C8 counterexample: the claim states the uppercase input row
beginning `AA:BB:CC:DD:EE:FF` yields a client whose address is
`aa-bb-cc-dd-ee-ff`. Normalization only replaces colons by hyphens and
never lowercases, so the emitted address is `AA-BB-CC-DD-EE-FF`. -/
theorem c8_uppercase_address_not_lowercased :
    parseAirodumpCsv emptyDb emptyDb (some c8Dump) =
      some (getAPData apTextW, [c8Client]) ∧
    c8Client.MAC = "AA-BB-CC-DD-EE-FF" ∧
    c8Client.MAC ≠ "aa-bb-cc-dd-ee-ff" := by decide

/-- Claim C8 as amended: every address in every output record has its
colons replaced by hyphens with the letter case preserved — lowercase
`aa:bb:cc:dd:ee:ff` normalizes to `aa-bb-cc-dd-ee-ff` and no output
address contains a colon — and the uppercase end-to-end row yields one
client with address `AA-BB-CC-DD-EE-FF`, power -40, packets 12 and
BSSID `(not associated)`. -/
theorem c8_normalization_amended :
    (∀ (db1 db2 : String → String) (data : String) (cs : List Client) (c : Client),
      getClientsData db1 db2 data = some cs → c ∈ cs → ':' ∉ c.MAC.data) ∧
    (∀ (data : String) (a : AccessPoint), a ∈ getAPData data → ':' ∉ a.MAC.data) ∧
    replaceColons "aa:bb:cc:dd:ee:ff" = "aa-bb-cc-dd-ee-ff" ∧
    getClientsData emptyDb emptyDb c8ClText = some [c8Client] ∧
    c8Client.MAC = "AA-BB-CC-DD-EE-FF" ∧ c8Client.Power = -40 ∧
    c8Client.Packets = 12 ∧ c8Client.BSSID = "(not associated)" := by
  refine ⟨?_, ?_, by decide, by decide, rfl, rfl, rfl, rfl⟩
  · intro db1 db2 data cs c hp hc
    obtain ⟨r, hr⟩ := processRows_mem db1 db2 (csvRows data) cs c hp hc
    obtain ⟨loc, hmac, _, _⟩ := rowToClient_shape db1 db2 r c hr
    rw [hmac]
    exact replaceColons_no_colon _
  · intro data a ha
    obtain ⟨r, _, hr⟩ := List.mem_filterMap.mp ha
    have hmac : a.MAC = replaceColons (r.getD 0 "") := by
      unfold apOfRecord at hr
      split at hr
      · exact absurd hr (by simp)
      · rw [← Option.some.inj hr]
    rw [hmac]
    exact replaceColons_no_colon _

/-- Witness for the amended claim C8 at a concrete parsed record. -/
theorem c8_normalization_amended_witness : ':' ∉ c8Client.MAC.data :=
  c8_normalization_amended.1 emptyDb emptyDb c8ClText [c8Client] c8Client
    (by decide) (by simp)

/-- A client section whose single 7-column row has a 2-character address. -/
def c10ClText : String := "\nab, 2024-01-01 10:00:00, 2024-01-01 10:05:00, -40, 12, (not associated), \n"

/-- A dump containing that client row. -/
def c10Dump : String := apTextW ++ clientHeader ++ c10ClText

set_option maxRecDepth 100000 in
/-- Claim C10: a client row with 7 columns whose address is shorter than
8 characters is not skipped recoverably: the unconditional `MAC[:8]`
prefix slice (after the `MAC[:2]` classification slice) is out of range
and the parse panics, modelled by the `none` result. -/
theorem c10_short_address_panics :
    (csvRows c10ClText).map List.length = [7] ∧
    strLen (((csvRows c10ClText).getD 0 []).getD 0 "") = 2 ∧
    getClientsData emptyDb emptyDb c10ClText = none ∧
    parseAirodumpCsv emptyDb emptyDb (some c10Dump) = none := by decide

end Netnet
